import Mathlib

/-!
Verification of the W29C020C flash programmer firmware
(`src/flash_programmer.ino`), via a shallow embedding of its
register-level behaviour.

The ATmega32A port registers (`PORTA`, `PORTB`, `PORTC`, `PORTD`,
`DDRA`, `DDRB`, `DDRC`, `DDRD`) are modelled as a record of natural
numbers.  Every firmware operation becomes a pure function from the
register state to a final register state plus a trace of atomic
events, one event per register assignment, busy-wait delay, or data
sample, in program order.  `Serial` printing does not touch the bus
and is omitted from the traces.
-/

namespace FlashProg

/-- `PAGE_SIZE` from the source (line 36). -/
def PAGE_SIZE : Nat := 128

/-- Bit mask of the flash chip-enable line in port D (source line 39). -/
def FLASH_CE : Nat := 4

/-- Bit mask of the flash output-enable line in port D (source line 40). -/
def FLASH_OE : Nat := 8

/-- Bit mask of the flash write-enable line in port D (source line 41). -/
def FLASH_WE : Nat := 16

/-- Bit mask of the external buffer output-enable line in port D (source line 42). -/
def BUFFER_OE : Nat := 32

/-- The AVR I/O registers used by the firmware: output ports A-D and the
corresponding data-direction registers. -/
structure Ports where
  portA : Nat
  portB : Nat
  portC : Nat
  portD : Nat
  ddrA : Nat
  ddrB : Nat
  ddrC : Nat
  ddrD : Nat
deriving Repr, DecidableEq

/-- One atomic step of a firmware operation.  Every constructor carries the
register state in force once the step has executed (for a delay or a data
sample, the unchanged state being held). -/
inductive Ev where
  | setReg (s : Ports)
  | delayUs (us : Nat) (s : Ports)
  | delayMs (ms : Nat) (s : Ports)
  | sample (v : Nat) (s : Ports)
deriving Repr, DecidableEq

/-- The register state in force at an event. -/
def Ev.state : Ev → Ports
  | .setReg s => s
  | .delayUs _ s => s
  | .delayMs _ s => s
  | .sample _ s => s

/-- The flash write-enable line as seen by the chip: bit 4 of port D
(`FLASH_WE = 16`); `true` means deasserted (high). -/
def weLine (s : Ports) : Bool := s.portD.testBit 4

/-- The flash chip-enable line: bit 2 of port D (`FLASH_CE = 4`). -/
def ceLine (s : Ports) : Bool := s.portD.testBit 2

/-- The flash output-enable line: bit 3 of port D (`FLASH_OE = 8`). -/
def oeLine (s : Ports) : Bool := s.portD.testBit 3

/-- The 16-bit address currently driven on the two address ports. -/
def addrBus (s : Ports) : Nat := s.portB * 256 + s.portA

/-- `writeByte` (source lines 46-66).  C semantics: `address` is
`uint16_t`, the assignments `PORTA = address` and `PORTB = address>>8`
truncate to 8 bits, modelled by `% 256` and `/ 256 % 256`;
`PORTD |= m` is `||| m` and `PORTD &= ~m` is `&&& (255 ^^^ m)` on the
8-bit register. -/
def writeByte (address data : Nat) (s : Ports) : Ports × List Ev :=
  let s1 : Ports := { s with portD := s.portD ||| (FLASH_CE ||| FLASH_OE ||| FLASH_WE) }
  let s2 : Ports := { s1 with portA := address % 256 }
  let s3 : Ports := { s2 with portB := address / 256 % 256 }
  let s4 : Ports := { s3 with portC := data % 256 }
  let s5 : Ports := { s4 with portD := s4.portD &&& (255 ^^^ (FLASH_WE ||| FLASH_CE)) }
  let s6 : Ports := { s5 with portD := s5.portD ||| (FLASH_CE ||| FLASH_OE ||| FLASH_WE) }
  (s6, [Ev.setReg s1, Ev.setReg s2, Ev.setReg s3, Ev.setReg s4, Ev.setReg s5,
        Ev.delayUs 1 s5, Ev.setReg s6, Ev.delayUs 1 s6])

/-- `readByte` (source lines 68-97).  `flash` gives the chip contents that
appear on the data pins `PINC` while the chip drives the bus; the sampled
byte is the cell at the driven 16-bit address. -/
def readByte (flash : Nat → Nat) (address : Nat) (s : Ports) :
    Nat × Ports × List Ev :=
  let s1 : Ports := { s with ddrA := 255 }
  let s2 : Ports := { s1 with ddrB := 255 }
  let s3 : Ports := { s2 with portD := s2.portD ||| (FLASH_CE ||| FLASH_OE ||| FLASH_WE) }
  let s4 : Ports := { s3 with portA := address % 256 }
  let s5 : Ports := { s4 with portB := address / 256 % 256 }
  let s6 : Ports := { s5 with portD := s5.portD &&& (255 ^^^ (FLASH_CE ||| FLASH_OE)) }
  let data : Nat := flash (address % 65536) % 256
  let s7 : Ports := { s6 with portD := s6.portD ||| (FLASH_CE ||| FLASH_OE) }
  let s8 : Ports := { s7 with ddrA := 0 }
  let s9 : Ports := { s8 with ddrB := 0 }
  let s10 : Ports := { s9 with portA := 0 }
  let s11 : Ports := { s10 with portB := 0 }
  (data, s11,
    [Ev.setReg s1, Ev.setReg s2, Ev.setReg s3, Ev.setReg s4, Ev.setReg s5,
     Ev.delayUs 10 s5, Ev.setReg s6, Ev.delayUs 10 s6, Ev.sample data s6,
     Ev.setReg s7, Ev.setReg s8, Ev.setReg s9, Ev.setReg s10, Ev.setReg s11])

/-- The data loop of `writePage` (source lines 112-113): writes
`src[i] .. src[i+n-1]` to `address+i .. address+i+n-1`. -/
def pageLoop (address : Nat) (src : List Nat) (i n : Nat) (s : Ports) :
    Ports × List Ev :=
  match n with
  | 0 => (s, [])
  | k + 1 =>
    let r1 := writeByte (address + i) (src.getD i 0) s
    let r2 := pageLoop address src (i + 1) k r1.1
    (r2.1, r1.2 ++ r2.2)

/-- `writePage` (source lines 99-125). -/
def writePage (address : Nat) (src : List Nat) (s : Ports) : Ports × List Ev :=
  let s1 : Ports := { s with ddrA := 255 }
  let s2 : Ports := { s1 with ddrB := 255 }
  let s3 : Ports := { s2 with ddrC := 255 }
  let r1 := writeByte 0x5555 0xAA s3
  let r2 := writeByte 0x2AAA 0x55 r1.1
  let r3 := writeByte 0x5555 0xA0 r2.1
  let r4 := pageLoop address src 0 PAGE_SIZE r3.1
  let s4 := r4.1
  let s5 : Ports := { s4 with ddrA := 0 }
  let s6 : Ports := { s5 with ddrB := 0 }
  let s7 : Ports := { s6 with ddrC := 0 }
  let s8 : Ports := { s7 with portA := 0 }
  let s9 : Ports := { s8 with portB := 0 }
  let s10 : Ports := { s9 with portC := 0 }
  (s10,
    [Ev.setReg s1, Ev.setReg s2, Ev.setReg s3] ++ r1.2 ++ r2.2 ++ r3.2 ++ r4.2
      ++ Ev.delayMs 10 s4 ::
        [Ev.setReg s5, Ev.setReg s6, Ev.setReg s7, Ev.setReg s8,
         Ev.setReg s9, Ev.setReg s10])

/-- `chipErase` (source lines 127-151).  The `Serial.println` call touches no
bus line and is omitted.  Note the source neither captures nor releases bus
ownership here. -/
def chipErase (s : Ports) : Ports × List Ev :=
  let s1 : Ports := { s with ddrA := 255 }
  let s2 : Ports := { s1 with ddrB := 255 }
  let s3 : Ports := { s2 with ddrC := 255 }
  let r1 := writeByte 0x5555 0xAA s3
  let r2 := writeByte 0x2AAA 0x55 r1.1
  let r3 := writeByte 0x5555 0x80 r2.1
  let r4 := writeByte 0x5555 0xAA r3.1
  let r5 := writeByte 0x2AAA 0x55 r4.1
  let r6 := writeByte 0x5555 0x10 r5.1
  let s4 := r6.1
  let s5 : Ports := { s4 with ddrA := 0 }
  let s6 : Ports := { s5 with ddrB := 0 }
  let s7 : Ports := { s6 with ddrC := 0 }
  let s8 : Ports := { s7 with portA := 0 }
  let s9 : Ports := { s8 with portB := 0 }
  let s10 : Ports := { s9 with portC := 0 }
  (s10,
    [Ev.setReg s1, Ev.setReg s2, Ev.setReg s3]
      ++ r1.2 ++ r2.2 ++ r3.2 ++ r4.2 ++ r5.2 ++ r6.2
      ++ Ev.delayMs 50 s4 ::
        [Ev.setReg s5, Ev.setReg s6, Ev.setReg s7, Ev.setReg s8,
         Ev.setReg s9, Ev.setReg s10])

/-- `captureOwnership` (source lines 153-172). -/
def captureOwnership (s : Ports) : Ports × List Ev :=
  let s1 : Ports := { s with portD := s.portD ||| BUFFER_OE }
  let s2 : Ports := { s1 with ddrD := s1.ddrD ||| FLASH_CE }
  let s3 : Ports := { s2 with portD := s2.portD ||| (FLASH_CE ||| FLASH_WE ||| FLASH_OE) }
  let s4 : Ports := { s3 with ddrA := 0 }
  let s5 : Ports := { s4 with ddrB := 0 }
  let s6 : Ports := { s5 with ddrC := 0 }
  let s7 : Ports := { s6 with portA := 0 }
  let s8 : Ports := { s7 with portB := 0 }
  let s9 : Ports := { s8 with portC := 0 }
  (s9, [Ev.setReg s1, Ev.setReg s2, Ev.setReg s3, Ev.setReg s4, Ev.setReg s5,
        Ev.setReg s6, Ev.setReg s7, Ev.setReg s8, Ev.setReg s9])

/-- `releaseOwnership` (source lines 174-197). -/
def releaseOwnership (s : Ports) : Ports × List Ev :=
  let s1 : Ports := { s with portD := s.portD ||| FLASH_WE }
  let s2 : Ports := { s1 with portD := s1.portD &&& (255 ^^^ FLASH_OE) }
  let s3 : Ports := { s2 with ddrD := s2.ddrD &&& (255 ^^^ FLASH_CE) }
  let s4 : Ports := { s3 with portD := s3.portD &&& (255 ^^^ FLASH_CE) }
  let s5 : Ports := { s4 with ddrA := 0 }
  let s6 : Ports := { s5 with ddrB := 0 }
  let s7 : Ports := { s6 with ddrC := 0 }
  let s8 : Ports := { s7 with portA := 0 }
  let s9 : Ports := { s8 with portB := 0 }
  let s10 : Ports := { s9 with portC := 0 }
  let s11 : Ports := { s10 with portD := s10.portD &&& (255 ^^^ BUFFER_OE) }
  (s11, [Ev.setReg s1, Ev.setReg s2, Ev.setReg s3, Ev.setReg s4, Ev.setReg s5,
         Ev.setReg s6, Ev.setReg s7, Ev.setReg s8, Ev.setReg s9,
         Ev.setReg s10, Ev.setReg s11])

/-- Register state left by `setup` (source lines 281-297): all buses input
and zeroed, the four control lines output and high (`DDRD = PORTD = 60`). -/
def setupPorts : Ports :=
  { portA := 0, portB := 0, portC := 0
    portD := FLASH_CE ||| FLASH_OE ||| FLASH_WE ||| BUFFER_OE
    ddrA := 0, ddrB := 0, ddrC := 0
    ddrD := FLASH_CE ||| FLASH_OE ||| FLASH_WE ||| BUFFER_OE }

/-!
Trace observers.  A flash **write transaction** happens at the event where
the write-enable line falls with chip-enable low (the source comment at
line 48: the address is latched on the falling edge of CE or WE, whichever
occurs last, and in `writeByte` both fall in the same register write); the
address and data buses at that event carry the transaction.  A **read
transaction** happens where output-enable falls with chip-enable low.
Detection is edge-triggered: `prev` is the register state in force just
before the trace starts, and each event's state is compared with its
predecessor. -/

/-- The register state in force after a trace (`prev` if the trace is empty). -/
def endState (prev : Ports) : List Ev → Ports
  | [] => prev
  | e :: rest => endState e.state rest

/-- The flash write transactions `(address, data)` of a trace, in order. -/
def writeTxnsFrom (prev : Ports) : List Ev → List (Nat × Nat)
  | [] => []
  | e :: rest =>
    (if weLine prev && !weLine e.state && !ceLine e.state
     then [(addrBus e.state, e.state.portC)] else [])
      ++ writeTxnsFrom e.state rest

/-- The flash read transactions (addresses) of a trace, in order. -/
def readsFrom (prev : Ports) : List Ev → List Nat
  | [] => []
  | e :: rest =>
    (if oeLine prev && !oeLine e.state && !ceLine e.state
     then [addrBus e.state] else [])
      ++ readsFrom e.state rest

/-- `ascToNibble` (source lines 205-214); 42 is ASCII for the sentinel
star, 48-57 are the digits, 97-102 are lowercase and 65-70 uppercase hex
letters. -/
def ascToNibble (v : Nat) : Nat :=
  if 48 ≤ v ∧ v ≤ 57 then v - 48
  else if 97 ≤ v ∧ v ≤ 102 then v - 97 + 10
  else if 65 ≤ v ∧ v ≤ 70 then v - 65 + 10
  else 0

/-- The serial-collection loop of `writePageHex` (source lines 226-240):
starting from buffer `buf` at byte index `i`, consume hex-pair characters
from `input` until a 42 (the star sentinel) or 128 bytes collected,
storing `(h<<4)|l` at successive positions.  An exhausted `input` models
`readSerial` blocking forever: the buffer never changes after that point. -/
def fillBuffer : List Nat → List Nat → Nat → List Nat
  | buf, [], _ => buf
  | buf, [_], _ => buf
  | buf, h :: l :: rest, i =>
    if h = 42 then buf
    else if l = 42 then buf
    else if i < PAGE_SIZE then
      fillBuffer (buf.set i (ascToNibble h <<< 4 ||| ascToNibble l)) rest (i + 1)
    else buf

/-- Specification-side decoder: the bytes encoded by complete hex pairs of
the input stream before the first star sentinel, in order (unbounded by
the page size).  Used to compare `fillBuffer` against the wording of the
spec. -/
def decodeHex : List Nat → List Nat
  | [] => []
  | [_] => []
  | h :: l :: rest =>
    if h = 42 then []
    else if l = 42 then []
    else (ascToNibble h <<< 4 ||| ascToNibble l) :: decodeHex rest

/-- `writePageHex` (source lines 216-247): capture ownership, collect the
page buffer from the serial stream, write it to page `page`, release
ownership.  The `Serial.print` calls are bus-silent and omitted. -/
def writePageHexM (page : Nat) (input : List Nat) (s : Ports) :
    Ports × List Ev :=
  let r1 := captureOwnership s
  let buffer := fillBuffer (List.replicate PAGE_SIZE 0) input 0
  let r2 := writePage (page * PAGE_SIZE) buffer r1.1
  let r3 := releaseOwnership r2.1
  (r3.1, r1.2 ++ r2.2 ++ r3.2)

/-- The read loop of `dumpPage` (source lines 259-275): `n` remaining
reads starting at index `i` of page `page`; returns the bytes printed. -/
def dumpLoop (flash : Nat → Nat) (page i n : Nat) (s : Ports) :
    List Nat × Ports × List Ev :=
  match n with
  | 0 => ([], s, [])
  | k + 1 =>
    let r1 := readByte flash (page * PAGE_SIZE + i) s
    let r2 := dumpLoop flash page (i + 1) k r1.2.1
    (r1.1 :: r2.1, r2.2.1, r1.2.2 ++ r2.2.2)

/-- `dumpPage` (source lines 249-279): capture ownership, read the 128
bytes of page `page`, release ownership.  Hex formatting is bus-silent
and omitted. -/
def dumpPageM (flash : Nat → Nat) (page : Nat) (s : Ports) :
    List Nat × Ports × List Ev :=
  let r1 := captureOwnership s
  let r2 := dumpLoop flash page 0 PAGE_SIZE r1.1
  let r3 := releaseOwnership r2.2.1
  (r2.1, r3.1, r1.2 ++ r2.2.2 ++ r3.2)

/-- The page index computed by `loop` (source lines 309 and 314):
`byte page = readSerial() - '0'` wraps modulo 256 in C. -/
def pageOf (c : Nat) : Nat := (c + 256 - 48) % 256

/-- One iteration of `loop` (source lines 299-332) at the register level:
the head of `stream` is the command byte; `w` (119) and `d` (100) consume
a page character next; `e` (101) runs `chipErase`; other commands only
print.  An exhausted stream models `readSerial` blocking. -/
def loopM (flash : Nat → Nat) (stream : List Nat) (s : Ports) :
    Ports × List Ev :=
  match stream with
  | [] => (s, [])
  | cmd :: rest =>
    if cmd = 119 then
      match rest with
      | [] => (s, [])
      | pc :: rest2 => writePageHexM (pageOf pc) rest2 s
    else if cmd = 100 then
      match rest with
      | [] => (s, [])
      | pc :: _ => (dumpPageM flash (pageOf pc) s).2
    else if cmd = 101 then chipErase s
    else (s, [])

/-!
Call-level model of the dispatcher, used for the bus-ownership claim:
each Arbiter, Transactor or Sequencer invocation performed while handling
one command, in program order. -/

/-- One Arbiter/Transactor/Sequencer invocation. -/
inductive Call where
  | capture
  | release
  | busWrite (address data : Nat)
  | busRead (address : Nat)
  | wait (ms : Nat)
deriving Repr, DecidableEq

/-- The calls performed by `writePage` (source lines 99-125): the three
unlock writes, the 128 data writes, the 10 ms program wait. -/
def writePageCalls (address : Nat) (src : List Nat) : List Call :=
  [Call.busWrite 0x5555 0xAA, Call.busWrite 0x2AAA 0x55, Call.busWrite 0x5555 0xA0]
    ++ (List.range PAGE_SIZE).map (fun i => Call.busWrite (address + i) (src.getD i 0))
    ++ [Call.wait 10]

/-- The calls performed by `chipErase` (source lines 127-151): two unlock
triples ending in 0x80 then 0x10, the 50 ms erase wait — and no ownership
call. -/
def chipEraseCalls : List Call :=
  [Call.busWrite 0x5555 0xAA, Call.busWrite 0x2AAA 0x55, Call.busWrite 0x5555 0x80,
   Call.busWrite 0x5555 0xAA, Call.busWrite 0x2AAA 0x55, Call.busWrite 0x5555 0x10,
   Call.wait 50]

/-- The calls performed by `writePageHex` (source lines 216-247). -/
def writePageHexCalls (page : Nat) (input : List Nat) : List Call :=
  Call.capture
    :: writePageCalls (page * PAGE_SIZE) (fillBuffer (List.replicate PAGE_SIZE 0) input 0)
    ++ [Call.release]

/-- The calls performed by `dumpPage` (source lines 249-279). -/
def dumpPageCalls (page : Nat) : List Call :=
  Call.capture
    :: (List.range PAGE_SIZE).map (fun i => Call.busRead (page * PAGE_SIZE + i))
    ++ [Call.release]

/-- The calls performed by one iteration of `loop` (source lines 299-332)
on a given serial stream. -/
def loopCalls (stream : List Nat) : List Call :=
  match stream with
  | [] => []
  | cmd :: rest =>
    if cmd = 119 then
      match rest with
      | [] => []
      | pc :: rest2 => writePageHexCalls (pageOf pc) rest2
    else if cmd = 100 then
      match rest with
      | [] => []
      | pc :: _ => dumpPageCalls (pageOf pc)
    else if cmd = 101 then chipEraseCalls
    else []

/-!
Mock flash chip honouring the page-write command protocol documented in
the source header comment (lines 22-27) and spec section 4.3: the unlock
writes 0xAA@0x5555, 0x55@0x2AAA, 0xA0@0x5555 enter page-load mode, after
which each write transaction stores its data byte at its address. -/

/-- State of the mock flash chip: unlock progress (0-2) or page-load
mode (3), plus the cell contents. -/
structure Flash where
  mode : Nat
  mem : Nat → Nat

/-- One write transaction applied to the mock flash chip. -/
def flashWrite (f : Flash) (a d : Nat) : Flash :=
  if f.mode = 0 then
    if a = 0x5555 ∧ d = 0xAA then { f with mode := 1 } else { f with mode := 0 }
  else if f.mode = 1 then
    if a = 0x2AAA ∧ d = 0x55 then { f with mode := 2 } else { f with mode := 0 }
  else if f.mode = 2 then
    if a = 0x5555 ∧ d = 0xA0 then { f with mode := 3 } else { f with mode := 0 }
  else
    { f with mem := fun x => if x = a then d else f.mem x }

/-- Run a list of write transactions through the mock flash chip. -/
def flashRun (f : Flash) : List (Nat × Nat) → Flash
  | [] => f
  | (a, d) :: rest => flashRun (flashWrite f a d) rest

/-- Read `n` consecutive flash addresses `base+i, base+i+1, ...` through
`readByte`, threading the register state; returns the bytes in order. -/
def readLoop (flash : Nat → Nat) (base i n : Nat) (s : Ports) :
    List Nat × Ports × List Ev :=
  match n with
  | 0 => ([], s, [])
  | k + 1 =>
    let r1 := readByte flash (base + i) s
    let r2 := readLoop flash base (i + 1) k r1.2.1
    (r1.1 :: r2.1, r2.2.1, r1.2.2 ++ r2.2.2)

/-!
Bit-level facts about the port-D masks that arise from the source's
`|=` and `&= ~` operations, at the three flash control bits 2 (CE),
3 (OE) and 4 (WE). -/

@[simp] theorem tb4 : Nat.testBit 4 2 = true ∧ Nat.testBit 4 3 = false ∧
    Nat.testBit 4 4 = false := by decide

@[simp] theorem tb8 : Nat.testBit 8 2 = false ∧ Nat.testBit 8 3 = true ∧
    Nat.testBit 8 4 = false := by decide

@[simp] theorem tb12 : Nat.testBit 12 2 = true ∧ Nat.testBit 12 3 = true ∧
    Nat.testBit 12 4 = false := by decide

@[simp] theorem tb16 : Nat.testBit 16 2 = false ∧ Nat.testBit 16 3 = false ∧
    Nat.testBit 16 4 = true := by decide

@[simp] theorem tb28 : Nat.testBit 28 2 = true ∧ Nat.testBit 28 3 = true ∧
    Nat.testBit 28 4 = true := by decide

@[simp] theorem tb32 : Nat.testBit 32 2 = false ∧ Nat.testBit 32 3 = false ∧
    Nat.testBit 32 4 = false := by decide

@[simp] theorem tb60 : Nat.testBit 60 2 = true ∧ Nat.testBit 60 3 = true ∧
    Nat.testBit 60 4 = true := by decide

@[simp] theorem tb223 : Nat.testBit 223 2 = true ∧ Nat.testBit 223 3 = true ∧
    Nat.testBit 223 4 = true := by decide

@[simp] theorem tb235 : Nat.testBit 235 2 = false ∧ Nat.testBit 235 3 = true ∧
    Nat.testBit 235 4 = false := by decide

@[simp] theorem tb243 : Nat.testBit 243 2 = false ∧ Nat.testBit 243 3 = false ∧
    Nat.testBit 243 4 = true := by decide

@[simp] theorem tb247 : Nat.testBit 247 2 = true ∧ Nat.testBit 247 3 = false ∧
    Nat.testBit 247 4 = true := by decide

@[simp] theorem tb251 : Nat.testBit 251 2 = false ∧ Nat.testBit 251 3 = true ∧
    Nat.testBit 251 4 = true := by decide

/-- All three flash control lines deasserted (high), as every Transactor
operation leaves them. -/
def ctrlHigh (s : Ports) : Prop :=
  weLine s = true ∧ ceLine s = true ∧ oeLine s = true

theorem endState_append (p : Ports) (t1 t2 : List Ev) :
    endState p (t1 ++ t2) = endState (endState p t1) t2 := by
  induction t1 generalizing p with
  | nil => rfl
  | cons e rest ih => simp [endState, ih]

theorem writeTxnsFrom_append (p : Ports) (t1 t2 : List Ev) :
    writeTxnsFrom p (t1 ++ t2)
      = writeTxnsFrom p t1 ++ writeTxnsFrom (endState p t1) t2 := by
  induction t1 generalizing p with
  | nil => rfl
  | cons e rest ih => simp [writeTxnsFrom, endState, ih]

theorem readsFrom_append (p : Ports) (t1 t2 : List Ev) :
    readsFrom p (t1 ++ t2)
      = readsFrom p t1 ++ readsFrom (endState p t1) t2 := by
  induction t1 generalizing p with
  | nil => rfl
  | cons e rest ih => simp [readsFrom, endState, ih]

theorem writeTxnsFrom_constD : ∀ (t : List Ev) (p : Ports),
    (∀ e ∈ t, (Ev.state e).portD = p.portD) → writeTxnsFrom p t = [] := by
  intro t
  induction t with
  | nil => intro p _; rfl
  | cons e rest ih =>
    intro p h
    have he : (Ev.state e).portD = p.portD := h e (by simp)
    have hcond : (weLine p && !weLine e.state && !ceLine e.state) = false := by
      cases hb : Nat.testBit p.portD 4 <;> simp [weLine, he, hb]
    simp only [writeTxnsFrom, hcond]
    simpa using ih e.state (fun e2 he2 => by rw [h e2 (by simp [he2]), he])

theorem readsFrom_constD : ∀ (t : List Ev) (p : Ports),
    (∀ e ∈ t, (Ev.state e).portD = p.portD) → readsFrom p t = [] := by
  intro t
  induction t with
  | nil => intro p _; rfl
  | cons e rest ih =>
    intro p h
    have he : (Ev.state e).portD = p.portD := h e (by simp)
    have hcond : (oeLine p && !oeLine e.state && !ceLine e.state) = false := by
      cases hb : Nat.testBit p.portD 3 <;> simp [oeLine, he, hb]
    simp only [readsFrom, hcond]
    simpa using ih e.state (fun e2 he2 => by rw [h e2 (by simp [he2]), he])

theorem writeByte_txns (p : Ports) (a d : Nat) (s : Ports) :
    writeTxnsFrom p (writeByte a d s).2 = [(a % 65536, d % 256)] := by
  simp [writeByte, writeTxnsFrom, Ev.state, weLine, ceLine, oeLine, addrBus,
        FLASH_CE, FLASH_OE, FLASH_WE]
  omega

theorem writeByte_reads (a d : Nat) (s : Ports) :
    readsFrom s (writeByte a d s).2 = [] := by
  simp [writeByte, readsFrom, Ev.state, weLine, ceLine, oeLine,
        FLASH_CE, FLASH_OE, FLASH_WE]

theorem writeByte_endState (p : Ports) (a d : Nat) (s : Ports) :
    endState p (writeByte a d s).2 = (writeByte a d s).1 := by
  simp [writeByte, endState, Ev.state]

theorem writeByte_ctrl (a d : Nat) (s : Ports) :
    ctrlHigh (writeByte a d s).1 := by
  simp [writeByte, ctrlHigh, weLine, ceLine, oeLine, FLASH_CE, FLASH_OE, FLASH_WE]

theorem readByte_txns (flash : Nat → Nat) (a : Nat) (s : Ports) :
    writeTxnsFrom s (readByte flash a s).2.2 = [] := by
  simp [readByte, writeTxnsFrom, Ev.state, weLine, ceLine, oeLine,
        FLASH_CE, FLASH_OE, FLASH_WE]

theorem readByte_reads (flash : Nat → Nat) (a : Nat) (s : Ports) :
    readsFrom s (readByte flash a s).2.2 = [a % 65536] := by
  simp [readByte, readsFrom, Ev.state, weLine, ceLine, oeLine, addrBus,
        FLASH_CE, FLASH_OE, FLASH_WE]
  omega

theorem readByte_endState (p : Ports) (flash : Nat → Nat) (a : Nat) (s : Ports) :
    endState p (readByte flash a s).2.2 = (readByte flash a s).2.1 := by
  simp [readByte, endState, Ev.state]

theorem readByte_ctrl (flash : Nat → Nat) (a : Nat) (s : Ports) :
    ctrlHigh (readByte flash a s).2.1 := by
  simp [readByte, ctrlHigh, weLine, ceLine, oeLine, FLASH_CE, FLASH_OE, FLASH_WE]

theorem readByte_val (flash : Nat → Nat) (a : Nat) (s : Ports) :
    (readByte flash a s).1 = flash (a % 65536) % 256 := rfl

theorem captureOwnership_txns (s : Ports) :
    writeTxnsFrom s (captureOwnership s).2 = [] := by
  simp [captureOwnership, writeTxnsFrom, Ev.state, weLine, ceLine, oeLine,
        FLASH_CE, FLASH_OE, FLASH_WE, BUFFER_OE]

theorem captureOwnership_reads (s : Ports) :
    readsFrom s (captureOwnership s).2 = [] := by
  simp [captureOwnership, readsFrom, Ev.state, weLine, ceLine, oeLine,
        FLASH_CE, FLASH_OE, FLASH_WE, BUFFER_OE]

theorem captureOwnership_endState (p s : Ports) :
    endState p (captureOwnership s).2 = (captureOwnership s).1 := by
  simp [captureOwnership, endState, Ev.state]

theorem captureOwnership_ctrl (s : Ports) :
    ctrlHigh (captureOwnership s).1 := by
  simp [captureOwnership, ctrlHigh, weLine, ceLine, oeLine,
        FLASH_CE, FLASH_OE, FLASH_WE, BUFFER_OE]

theorem releaseOwnership_txns (s : Ports) :
    writeTxnsFrom s (releaseOwnership s).2 = [] := by
  simp [releaseOwnership, writeTxnsFrom, Ev.state, weLine, ceLine, oeLine,
        FLASH_CE, FLASH_OE, FLASH_WE, BUFFER_OE]

theorem releaseOwnership_endState (p s : Ports) :
    endState p (releaseOwnership s).2 = (releaseOwnership s).1 := by
  simp [releaseOwnership, endState, Ev.state]

theorem releaseOwnership_reads (s : Ports) (h : ceLine s = true) :
    readsFrom s (releaseOwnership s).2 = [] := by
  simp [releaseOwnership, readsFrom, Ev.state, weLine, ceLine, oeLine,
        FLASH_CE, FLASH_OE, FLASH_WE, BUFFER_OE]
  simp [ceLine] at h
  simp [h]

theorem pageLoop_endState (address : Nat) (src : List Nat) :
    ∀ (n i : Nat) (s : Ports),
      endState s (pageLoop address src i n s).2 = (pageLoop address src i n s).1 := by
  intro n
  induction n with
  | zero => intro i s; rfl
  | succ k ih =>
    intro i s
    simp only [pageLoop, endState_append, writeByte_endState]
    exact ih (i + 1) (writeByte (address + i) (src.getD i 0) s).1

theorem pageLoop_txns (address : Nat) (src : List Nat) :
    ∀ (n i : Nat) (s : Ports),
      writeTxnsFrom s (pageLoop address src i n s).2
        = (List.range n).map
            (fun j => ((address + i + j) % 65536, src.getD (i + j) 0 % 256)) := by
  intro n
  induction n with
  | zero => intro i s; rfl
  | succ k ih =>
    intro i s
    have hm : (List.range k).map
          (fun j => ((address + (i + 1) + j) % 65536, src.getD (i + 1 + j) 0 % 256))
        = (List.range k).map
          ((fun j => ((address + i + j) % 65536, src.getD (i + j) 0 % 256)) ∘ Nat.succ) := by
      apply List.map_congr_left
      intro j _
      have h1 : address + (i + 1) + j = address + i + (j + 1) := by omega
      have h2 : i + 1 + j = i + (j + 1) := by omega
      simp [Function.comp, h1, h2]
    simp only [pageLoop, writeTxnsFrom_append, writeByte_txns, writeByte_endState,
               ih (i + 1), hm, List.range_succ_eq_map, List.map_cons, List.map_map,
               List.singleton_append, Nat.add_zero]

theorem pageLoop_ctrl (address : Nat) (src : List Nat) :
    ∀ (n i : Nat) (s : Ports), ctrlHigh s → ctrlHigh (pageLoop address src i n s).1 := by
  intro n
  induction n with
  | zero => intro i s h; exact h
  | succ k ih =>
    intro i s _
    exact ih (i + 1) _ (writeByte_ctrl _ _ _)

theorem dumpLoop_endState (flash : Nat → Nat) (page : Nat) :
    ∀ (n i : Nat) (s : Ports),
      endState s (dumpLoop flash page i n s).2.2 = (dumpLoop flash page i n s).2.1 := by
  intro n
  induction n with
  | zero => intro i s; rfl
  | succ k ih =>
    intro i s
    simp only [dumpLoop, endState_append, readByte_endState]
    exact ih (i + 1) _

theorem dumpLoop_reads (flash : Nat → Nat) (page : Nat) :
    ∀ (n i : Nat) (s : Ports),
      readsFrom s (dumpLoop flash page i n s).2.2
        = (List.range n).map (fun j => (page * PAGE_SIZE + (i + j)) % 65536) := by
  intro n
  induction n with
  | zero => intro i s; rfl
  | succ k ih =>
    intro i s
    have hm : (List.range k).map
          (fun j => (page * PAGE_SIZE + (i + 1 + j)) % 65536)
        = (List.range k).map
          ((fun j => (page * PAGE_SIZE + (i + j)) % 65536) ∘ Nat.succ) := by
      apply List.map_congr_left
      intro j _
      have h2 : i + 1 + j = i + (j + 1) := by omega
      simp [Function.comp, h2]
    simp only [dumpLoop, readsFrom_append, readByte_reads, readByte_endState,
               ih (i + 1), hm, List.range_succ_eq_map, List.map_cons, List.map_map,
               List.singleton_append, Nat.add_zero]

theorem dumpLoop_ctrl (flash : Nat → Nat) (page : Nat) :
    ∀ (n i : Nat) (s : Ports), ctrlHigh s → ctrlHigh (dumpLoop flash page i n s).2.1 := by
  intro n
  induction n with
  | zero => intro i s h; exact h
  | succ k ih =>
    intro i s _
    exact ih (i + 1) _ (readByte_ctrl _ _ _)

theorem readLoop_val (flash : Nat → Nat) (base : Nat) :
    ∀ (n i : Nat) (s : Ports),
      (readLoop flash base i n s).1
        = (List.range n).map (fun j => flash ((base + (i + j)) % 65536) % 256) := by
  intro n
  induction n with
  | zero => intro i s; rfl
  | succ k ih =>
    intro i s
    have hm : (List.range k).map
          (fun j => flash ((base + (i + 1 + j)) % 65536) % 256)
        = (List.range k).map
          ((fun j => flash ((base + (i + j)) % 65536) % 256) ∘ Nat.succ) := by
      apply List.map_congr_left
      intro j _
      have h2 : i + 1 + j = i + (j + 1) := by omega
      simp [Function.comp, h2]
    simp only [readLoop, ih (i + 1), hm, List.range_succ_eq_map, List.map_cons,
               List.map_map, readByte_val, Nat.add_zero]

set_option maxRecDepth 8000 in
theorem writePage_txns_eq (address : Nat) (src : List Nat) (s : Ports) :
    writeTxnsFrom s (writePage address src s).2
      = [(0x5555, 0xAA), (0x2AAA, 0x55), (0x5555, 0xA0)]
          ++ (List.range PAGE_SIZE).map
              (fun i => ((address + i) % 65536, src.getD i 0 % 256)) := by
  simp only [writePage]
  simp only [writeTxnsFrom_append]
  simp only [endState_append, writeByte_endState, pageLoop_endState]
  simp only [endState, Ev.state]
  simp only [writeByte_txns, pageLoop_txns]
  rw [writeTxnsFrom_constD _ s (by
        intro e he
        simp only [List.mem_cons, List.not_mem_nil, or_false] at he
        rcases he with rfl | rfl | rfl <;> rfl)]
  rw [writeTxnsFrom_constD _ _ (by
        intro e he
        simp only [List.mem_cons, List.not_mem_nil, or_false] at he
        rcases he with rfl | rfl | rfl | rfl | rfl | rfl | rfl <;> rfl)]
  simp

set_option maxRecDepth 8000 in
theorem writePage_endState (address : Nat) (src : List Nat) (s : Ports) :
    endState s (writePage address src s).2 = (writePage address src s).1 := by
  simp only [writePage]
  simp only [endState_append, writeByte_endState, pageLoop_endState]
  simp only [endState, Ev.state]

set_option maxRecDepth 8000 in
theorem writePage_ctrl (address : Nat) (src : List Nat) (s : Ports) :
    ctrlHigh (writePage address src s).1 := by
  have h := pageLoop_ctrl address src PAGE_SIZE 0
    (writeByte 0x5555 0xA0 (writeByte 0x2AAA 0x55 (writeByte 0x5555 0xAA
      { s with ddrA := 255, ddrB := 255, ddrC := 255 }).1).1).1
    (writeByte_ctrl _ _ _)
  obtain ⟨h1, h2, h3⟩ := h
  refine ⟨?_, ?_, ?_⟩ <;>
    simp_all [writePage, weLine, ceLine, oeLine]

theorem chipErase_txns_eq (s : Ports) :
    writeTxnsFrom s (chipErase s).2
      = [(0x5555, 0xAA), (0x2AAA, 0x55), (0x5555, 0x80),
         (0x5555, 0xAA), (0x2AAA, 0x55), (0x5555, 0x10)] := by
  simp only [chipErase]
  simp only [writeTxnsFrom_append]
  simp only [endState_append, writeByte_endState]
  simp only [endState, Ev.state]
  simp only [writeByte_txns]
  rw [writeTxnsFrom_constD _ s (by
        intro e he
        simp only [List.mem_cons, List.not_mem_nil, or_false] at he
        rcases he with rfl | rfl | rfl <;> rfl)]
  rw [writeTxnsFrom_constD _ _ (by
        intro e he
        simp only [List.mem_cons, List.not_mem_nil, or_false] at he
        rcases he with rfl | rfl | rfl | rfl | rfl | rfl | rfl <;> rfl)]
  simp

set_option maxRecDepth 8000 in
theorem writePage_delay_split (address : Nat) (src : List Nat) (s : Ports) :
    ∃ t1 t2 hs, (writePage address src s).2 = t1 ++ Ev.delayMs 10 hs :: t2
      ∧ writeTxnsFrom (endState s t1) t2 = [] := by
  refine ⟨?_, ?_, ?_, ?_, ?_⟩
  rotate_left 3
  · simp only [writePage]
    exact rfl
  · simp only [endState_append, writeByte_endState, pageLoop_endState]
    exact writeTxnsFrom_constD _ _ (by
      intro e he
      simp only [List.mem_cons, List.not_mem_nil, or_false] at he
      rcases he with rfl | rfl | rfl | rfl | rfl | rfl <;> rfl)

set_option maxRecDepth 8000 in
theorem chipErase_delay_split (s : Ports) :
    ∃ t1 t2 hs, (chipErase s).2 = t1 ++ Ev.delayMs 50 hs :: t2
      ∧ writeTxnsFrom (endState s t1) t2 = [] := by
  refine ⟨?_, ?_, ?_, ?_, ?_⟩
  rotate_left 3
  · simp only [chipErase]
    exact rfl
  · simp only [endState_append, writeByte_endState]
    exact writeTxnsFrom_constD _ _ (by
      intro e he
      simp only [List.mem_cons, List.not_mem_nil, or_false] at he
      rcases he with rfl | rfl | rfl | rfl | rfl | rfl <;> rfl)

theorem chipErase_ctrl (s : Ports) : ctrlHigh (chipErase s).1 := by
  have h := writeByte_ctrl 0x5555 0x10
    (writeByte 0x2AAA 0x55 (writeByte 0x5555 0xAA (writeByte 0x5555 0x80
      (writeByte 0x2AAA 0x55 (writeByte 0x5555 0xAA
        { s with ddrA := 255, ddrB := 255, ddrC := 255 }).1).1).1).1).1
  obtain ⟨h1, h2, h3⟩ := h
  refine ⟨?_, ?_, ?_⟩ <;> simp_all [chipErase, weLine, ceLine, oeLine]

theorem writePageHexM_txns (page : Nat) (input : List Nat) (s : Ports) :
    writeTxnsFrom s (writePageHexM page input s).2
      = [(0x5555, 0xAA), (0x2AAA, 0x55), (0x5555, 0xA0)]
          ++ (List.range PAGE_SIZE).map (fun i =>
              ((page * PAGE_SIZE + i) % 65536,
               (fillBuffer (List.replicate PAGE_SIZE 0) input 0).getD i 0 % 256)) := by
  simp only [writePageHexM]
  simp only [writeTxnsFrom_append]
  simp only [endState_append, captureOwnership_endState, writePage_endState]
  rw [captureOwnership_txns, writePage_txns_eq, releaseOwnership_txns]
  simp

theorem dumpPageM_reads (flash : Nat → Nat) (page : Nat) (s : Ports) :
    readsFrom s (dumpPageM flash page s).2.2
      = (List.range PAGE_SIZE).map (fun j => (page * PAGE_SIZE + j) % 65536) := by
  have hctrl : ctrlHigh (dumpLoop flash page 0 PAGE_SIZE (captureOwnership s).1).2.1 :=
    dumpLoop_ctrl flash page PAGE_SIZE 0 _ (captureOwnership_ctrl s)
  simp only [dumpPageM]
  simp only [readsFrom_append]
  simp only [endState_append, captureOwnership_endState, dumpLoop_endState]
  rw [captureOwnership_reads, dumpLoop_reads, releaseOwnership_reads _ hctrl.2.1]
  simp

/-- The mutual-exclusion condition toward the flash: output-enable and
write-enable are never both asserted (low), i.e. at least one is high. -/
def exclOK (s : Ports) : Prop := oeLine s = true ∨ weLine s = true

theorem writeByte_events (a d : Nat) (s : Ports) :
    ∀ e ∈ (writeByte a d s).2, exclOK e.state := by
  intro e he
  simp only [writeByte, List.mem_cons, List.not_mem_nil, or_false] at he
  rcases he with rfl | rfl | rfl | rfl | rfl | rfl | rfl | rfl <;>
    simp [exclOK, Ev.state, weLine, oeLine, FLASH_CE, FLASH_OE, FLASH_WE]

theorem readByte_events (flash : Nat → Nat) (a : Nat) (s : Ports)
    (h : exclOK s) : ∀ e ∈ (readByte flash a s).2.2, exclOK e.state := by
  intro e he
  simp only [readByte, List.mem_cons, List.not_mem_nil, or_false] at he
  rcases he with rfl | rfl | rfl | rfl | rfl | rfl | rfl | rfl | rfl | rfl |
    rfl | rfl | rfl | rfl <;>
    simp_all [exclOK, Ev.state, weLine, oeLine, FLASH_CE, FLASH_OE, FLASH_WE]

theorem captureOwnership_events (s : Ports) (h : exclOK s) :
    ∀ e ∈ (captureOwnership s).2, exclOK e.state := by
  intro e he
  simp only [captureOwnership, List.mem_cons, List.not_mem_nil, or_false] at he
  rcases he with rfl | rfl | rfl | rfl | rfl | rfl | rfl | rfl | rfl <;>
    simp_all [exclOK, Ev.state, weLine, oeLine, FLASH_CE, FLASH_OE, FLASH_WE,
              BUFFER_OE]

theorem releaseOwnership_events (s : Ports) :
    ∀ e ∈ (releaseOwnership s).2, exclOK e.state := by
  intro e he
  simp only [releaseOwnership, List.mem_cons, List.not_mem_nil, or_false] at he
  rcases he with rfl | rfl | rfl | rfl | rfl | rfl | rfl | rfl | rfl | rfl | rfl <;>
    simp [exclOK, Ev.state, weLine, oeLine, FLASH_CE, FLASH_OE, FLASH_WE,
          BUFFER_OE]

theorem pageLoop_events (address : Nat) (src : List Nat) :
    ∀ (n i : Nat) (s : Ports), ∀ e ∈ (pageLoop address src i n s).2, exclOK e.state := by
  intro n
  induction n with
  | zero => intro i s e he; simp [pageLoop] at he
  | succ k ih =>
    intro i s e he
    simp only [pageLoop, List.mem_append] at he
    rcases he with he | he
    · exact writeByte_events _ _ _ e he
    · exact ih (i + 1) _ e he

set_option maxRecDepth 8000 in
theorem writePage_events (address : Nat) (src : List Nat) (s : Ports)
    (h : exclOK s) : ∀ e ∈ (writePage address src s).2, exclOK e.state := by
  have hctrl : ctrlHigh (pageLoop address src 0 PAGE_SIZE
      (writeByte 0x5555 0xA0 (writeByte 0x2AAA 0x55 (writeByte 0x5555 0xAA
        { s with ddrA := 255, ddrB := 255, ddrC := 255 }).1).1).1).1 :=
    pageLoop_ctrl address src PAGE_SIZE 0 _ (writeByte_ctrl _ _ _)
  intro e he
  simp only [writePage, List.mem_append, List.mem_cons, List.not_mem_nil,
             or_false] at he
  rcases he with ((((he | he) | he) | he) | he) | he
  · rcases he with rfl | rfl | rfl <;>
      simp_all [exclOK, Ev.state, weLine, oeLine]
  · exact writeByte_events _ _ _ e he
  · exact writeByte_events _ _ _ e he
  · exact writeByte_events _ _ _ e he
  · exact pageLoop_events _ _ _ _ _ e he
  · rcases he with rfl | rfl | rfl | rfl | rfl | rfl | rfl <;>
      exact Or.inr (by simpa [weLine, Ev.state] using hctrl.1)

set_option maxRecDepth 8000 in
theorem chipErase_events (s : Ports) (h : exclOK s) :
    ∀ e ∈ (chipErase s).2, exclOK e.state := by
  have hctrl : ctrlHigh (writeByte 0x5555 0x10 (writeByte 0x2AAA 0x55
      (writeByte 0x5555 0xAA (writeByte 0x5555 0x80 (writeByte 0x2AAA 0x55
        (writeByte 0x5555 0xAA
          { s with ddrA := 255, ddrB := 255, ddrC := 255 }).1).1).1).1).1).1 :=
    writeByte_ctrl _ _ _
  intro e he
  simp only [chipErase, List.mem_append, List.mem_cons, List.not_mem_nil,
             or_false] at he
  rcases he with (((((((he | he) | he) | he) | he) | he) | he) | he)
  · rcases he with rfl | rfl | rfl <;>
      simp_all [exclOK, Ev.state, weLine, oeLine]
  · exact writeByte_events _ _ _ e he
  · exact writeByte_events _ _ _ e he
  · exact writeByte_events _ _ _ e he
  · exact writeByte_events _ _ _ e he
  · exact writeByte_events _ _ _ e he
  · exact writeByte_events _ _ _ e he
  · rcases he with rfl | rfl | rfl | rfl | rfl | rfl | rfl <;>
      exact Or.inr (by simpa [weLine, Ev.state] using hctrl.1)

theorem fill_spec : ∀ (input buf : List Nat) (i : Nat),
    buf.length = PAGE_SIZE → i + (decodeHex input).length ≤ PAGE_SIZE →
    List.drop i buf = List.replicate (PAGE_SIZE - i) 0 →
    fillBuffer buf input i
      = List.take i buf ++ decodeHex input
          ++ List.replicate (PAGE_SIZE - i - (decodeHex input).length) 0
  | [], buf, i, hlen, hle, hdrop => by
    simp only [fillBuffer, decodeHex, List.length_nil, Nat.sub_zero,
               List.append_nil]
    conv_lhs => rw [← List.take_append_drop i buf, hdrop]
  | [h], buf, i, hlen, hle, hdrop => by
    simp only [fillBuffer, decodeHex, List.length_nil, Nat.sub_zero,
               List.append_nil]
    conv_lhs => rw [← List.take_append_drop i buf, hdrop]
  | h :: l :: rest, buf, i, hlen, hle, hdrop => by
    by_cases hh : h = 42
    · simp only [fillBuffer, decodeHex, if_pos hh, List.length_nil,
                 Nat.sub_zero, List.append_nil]
      conv_lhs => rw [← List.take_append_drop i buf, hdrop]
    · by_cases hl : l = 42
      · simp only [fillBuffer, decodeHex, if_neg hh, if_pos hl,
                   List.length_nil, Nat.sub_zero, List.append_nil]
        conv_lhs => rw [← List.take_append_drop i buf, hdrop]
      · have hdlen : decodeHex (h :: l :: rest)
            = (ascToNibble h <<< 4 ||| ascToNibble l) :: decodeHex rest := by
          simp [decodeHex, hh, hl]
        rw [hdlen] at hle ⊢
        simp only [List.length_cons] at hle
        have hi : i < PAGE_SIZE := by omega
        have hib : i < buf.length := by omega
        have hdrop1 : buf.drop (i + 1)
            = List.replicate (PAGE_SIZE - (i + 1)) 0 := by
          have h1 := congrArg (List.drop 1) hdrop
          rw [List.drop_drop] at h1
          simp only [List.drop_replicate] at h1
          rw [h1]
          congr 1
        have hdropset : (buf.set i (ascToNibble h <<< 4 ||| ascToNibble l)).drop (i + 1)
            = List.replicate (PAGE_SIZE - (i + 1)) 0 := by
          rw [List.drop_set, if_pos (by omega)]
          exact hdrop1
        have hrec := fill_spec rest
          (buf.set i (ascToNibble h <<< 4 ||| ascToNibble l)) (i + 1)
          (by simp [hlen]) (by omega) hdropset
        have hstep : fillBuffer buf (h :: l :: rest) i
            = fillBuffer (buf.set i (ascToNibble h <<< 4 ||| ascToNibble l))
                rest (i + 1) := by
          simp [fillBuffer, hh, hl, hi]
        have htake : (buf.set i (ascToNibble h <<< 4 ||| ascToNibble l)).take (i + 1)
            = buf.take i ++ [ascToNibble h <<< 4 ||| ascToNibble l] := by
          rw [List.set_eq_take_cons_drop _ hib, List.take_append_eq_append_take]
          have hlt : (buf.take i).length = i := by
            simp [List.length_take]
            omega
          rw [List.take_of_length_le (by omega), hlt]
          simp
        rw [hstep, hrec, htake]
        have harith : PAGE_SIZE - (i + 1) - (decodeHex rest).length
            = PAGE_SIZE - i - ((decodeHex rest).length + 1) := by omega
        rw [harith]
        simp [List.append_assoc]

/-- Memory updates applied in order (the mode-3 behaviour of the mock
flash chip). -/
def applyWrites (mem : Nat → Nat) : List (Nat × Nat) → (Nat → Nat)
  | [] => mem
  | (a, d) :: rest => applyWrites (fun x => if x = a then d else mem x) rest

theorem flashRun_mode3 : ∀ (ws : List (Nat × Nat)) (mem : Nat → Nat),
    flashRun ⟨3, mem⟩ ws = ⟨3, applyWrites mem ws⟩ := by
  intro ws
  induction ws with
  | nil => intro mem; rfl
  | cons w rest ih =>
    intro mem
    obtain ⟨a, d⟩ := w
    simp only [flashRun, applyWrites, flashWrite]
    norm_num
    exact ih _

theorem applyWrites_not_mem (x : Nat) : ∀ (ws : List (Nat × Nat)) (mem : Nat → Nat),
    x ∉ ws.map Prod.fst → applyWrites mem ws x = mem x := by
  intro ws
  induction ws with
  | nil => intro mem _; rfl
  | cons w rest ih =>
    intro mem h
    obtain ⟨a, d⟩ := w
    simp only [List.map_cons, List.mem_cons, not_or] at h
    simp only [applyWrites]
    rw [ih _ h.2]
    simp [h.1]

theorem applyWrites_mem (x d : Nat) : ∀ (ws : List (Nat × Nat)) (mem : Nat → Nat),
    (ws.map Prod.fst).Nodup → (x, d) ∈ ws → applyWrites mem ws x = d := by
  intro ws
  induction ws with
  | nil => intro mem _ h; simp at h
  | cons w rest ih =>
    intro mem hnd hmem
    obtain ⟨a, b⟩ := w
    simp only [List.map_cons, List.nodup_cons] at hnd
    rcases List.mem_cons.mp hmem with heq | htail
    · obtain ⟨rfl, rfl⟩ := Prod.mk.injEq .. ▸ heq
      simp only [applyWrites]
      rw [applyWrites_not_mem _ _ _ hnd.1]
      simp
    · exact ih _ hnd.2 htail

theorem getD_range_map : ∀ (l : List Nat),
    (List.range l.length).map (fun i => l.getD i 0) = l := by
  intro l
  induction l with
  | nil => rfl
  | cons a t ih =>
    simp only [List.length_cons, List.range_succ_eq_map, List.map_cons,
               List.map_map]
    refine congrArg₂ List.cons ?_ ?_
    · rfl
    · have hfun : ((fun i => (a :: t).getD i 0) ∘ Nat.succ)
          = fun i => t.getD i 0 := by
        funext i
        rfl
      rw [hfun]
      exact ih

theorem flashRun_cons (f : Flash) (a d : Nat) (ws : List (Nat × Nat)) :
    flashRun f ((a, d) :: ws) = flashRun (flashWrite f a d) ws := rfl

set_option maxRecDepth 8000 in
theorem roundTrip_general (base : Nat) (src : List Nat) (f0 : Flash) (s : Ports)
    (hlen : src.length = PAGE_SIZE) (hbytes : ∀ b ∈ src, b < 256)
    (hmode : f0.mode = 0) :
    (readLoop (flashRun f0 (writeTxnsFrom s (writePage base src s).2)).mem
        base 0 PAGE_SIZE (writePage base src s).1).1 = src := by
  rw [writePage_txns_eq]
  have hf0 : f0 = ⟨0, f0.mem⟩ := by
    obtain ⟨m, mem⟩ := f0
    simp only at hmode
    rw [hmode]
  rw [hf0]
  generalize hX : (List.range PAGE_SIZE).map
      (fun i => ((base + i) % 65536, src.getD i 0 % 256)) = X
  have h1 : flashWrite ⟨0, f0.mem⟩ 0x5555 0xAA = ⟨1, f0.mem⟩ := by
    norm_num [flashWrite]
  have h2 : flashWrite ⟨1, f0.mem⟩ 0x2AAA 0x55 = ⟨2, f0.mem⟩ := by
    norm_num [flashWrite]
  have h3 : flashWrite ⟨2, f0.mem⟩ 0x5555 0xA0 = ⟨3, f0.mem⟩ := by
    norm_num [flashWrite]
  have hunlock : flashRun ⟨0, f0.mem⟩
      ([(0x5555, 0xAA), (0x2AAA, 0x55), (0x5555, 0xA0)] ++ X)
      = flashRun ⟨3, f0.mem⟩ X := by
    simp only [List.cons_append, List.nil_append, flashRun_cons, h1, h2, h3]
  rw [hunlock, flashRun_mode3, readLoop_val]
  simp only [Nat.zero_add]
  subst hX
  have hnodup : (((List.range PAGE_SIZE).map
      (fun i => ((base + i) % 65536, src.getD i 0 % 256))).map Prod.fst).Nodup := by
    rw [List.map_map]
    apply List.Nodup.map_on ?_ (List.nodup_range _)
    intro x hx y hy hxy
    simp only [List.mem_range] at hx hy
    simp only [Function.comp] at hxy
    simp only [PAGE_SIZE] at hx hy
    omega
  conv_rhs => rw [← getD_range_map src]
  rw [hlen]
  apply List.map_congr_left
  intro j hj
  simp only [List.mem_range] at hj
  have hmem2 : ((base + j) % 65536, src.getD j 0 % 256)
      ∈ (List.range PAGE_SIZE).map
          (fun i => ((base + i) % 65536, src.getD i 0 % 256)) :=
    List.mem_map.mpr ⟨j, List.mem_range.mpr hj, rfl⟩
  rw [applyWrites_mem ((base + j) % 65536) (src.getD j 0 % 256) _ f0.mem
        hnodup hmem2]
  have hbj : src.getD j 0 < 256 := by
    have hjl : j < src.length := by omega
    have := List.getD_eq_getElem src 0 hjl
    rw [this]
    exact hbytes _ (List.getElem_mem hjl)
  omega

/-!
Claim theorems.
-/

/-- Claim C1: the claim states that every dispatched command (`w`, `d` and
`e`) captures bus ownership before any Transactor or Sequencer operation
and releases it exactly once before completing.  The code violates this
for the `e` command: `loop` calls `chipErase` directly and `chipErase`
performs its six `writeByte` transactor operations without any
`captureOwnership` or `releaseOwnership` call.  This theorem evaluates the
dispatcher's call trace at the failing input (the serial command byte
`e` = 101): it contains zero capture calls, zero release calls, and yet
contains bus-write transactor calls. -/
theorem erase_command_runs_without_ownership :
    (loopCalls [101]).count Call.capture = 0
    ∧ (loopCalls [101]).count Call.release = 0
    ∧ Call.busWrite 0x5555 0xAA ∈ loopCalls [101]
    ∧ loopCalls [101] = chipEraseCalls := by decide

/-- Claim C2: `writePage base src` emits, as its exact sequence of flash
bus transactions, the three unlock writes 0xAA@0x5555, 0x55@0x2AAA,
0xA0@0x5555 immediately followed by the 128 byte writes at
`base+0 .. base+127` in ascending order with the corresponding buffer
bytes, followed by a 10 ms (≥ 10 ms) delay with no further bus
transaction before the function returns. -/
theorem writePage_unlock_then_sequential_writes (address : Nat)
    (src : List Nat) (s : Ports) (ha : address + PAGE_SIZE ≤ 65536) :
    writeTxnsFrom s (writePage address src s).2
      = [(0x5555, 0xAA), (0x2AAA, 0x55), (0x5555, 0xA0)]
          ++ (List.range PAGE_SIZE).map
              (fun i => (address + i, src.getD i 0 % 256))
    ∧ ∃ t1 t2 hs, (writePage address src s).2 = t1 ++ Ev.delayMs 10 hs :: t2
        ∧ writeTxnsFrom (endState s t1) t2 = [] := by
  constructor
  · rw [writePage_txns_eq]
    congr 1
    apply List.map_congr_left
    intro i hi
    simp only [List.mem_range, PAGE_SIZE] at hi
    simp only [PAGE_SIZE] at ha
    rw [Nat.mod_eq_of_lt (by omega)]
  · exact writePage_delay_split address src s

/-- Claim C3: `chipErase` emits exactly the six-write sequence
0xAA@0x5555, 0x55@0x2AAA, 0x80@0x5555, 0xAA@0x5555, 0x55@0x2AAA,
0x10@0x5555 followed by a 50 ms (≥ 50 ms) delay, and — because the
transaction list is one constant for every register state and `chipErase`
takes no other argument — no write depends on any caller-supplied address
or data. -/
theorem chipErase_fixed_sequence (s : Ports) :
    writeTxnsFrom s (chipErase s).2
      = [(0x5555, 0xAA), (0x2AAA, 0x55), (0x5555, 0x80),
         (0x5555, 0xAA), (0x2AAA, 0x55), (0x5555, 0x10)]
    ∧ ∃ t1 t2 hs, (chipErase s).2 = t1 ++ Ev.delayMs 50 hs :: t2
        ∧ writeTxnsFrom (endState s t1) t2 = [] :=
  ⟨chipErase_txns_eq s, chipErase_delay_split s⟩

/-- Claim C4: for every 16-bit address `a` and byte `d`, `writeByte a d`
drives `a` on the address bus and `d` on the data bus, asserts chip-enable
and write-enable low together in one register write — neither line is
asserted at any earlier step, so the two lines fall in the same step and
write-enable in particular falls no later than chip-enable — holds that
state for 1 µs, then deasserts chip-enable, output-enable and
write-enable high and holds 1 µs before returning (the trace ends with
that hold). -/
theorem writeByte_signal_protocol (a d : Nat) (ha : a < 65536)
    (hd : d < 256) (s : Ports) :
    ∃ sLo sHi,
      (writeByte a d s).2
        = ((writeByte a d s).2.take 4)
            ++ [Ev.setReg sLo, Ev.delayUs 1 sLo, Ev.setReg sHi, Ev.delayUs 1 sHi]
      ∧ (∀ e ∈ (writeByte a d s).2.take 4,
          weLine e.state = true ∧ ceLine e.state = true)
      ∧ addrBus sLo = a ∧ sLo.portC = d
      ∧ weLine sLo = false ∧ ceLine sLo = false
      ∧ weLine sHi = true ∧ ceLine sHi = true ∧ oeLine sHi = true := by
  refine ⟨{ s with portA := a % 256, portB := a / 256 % 256, portC := d % 256, portD := (s.portD ||| (FLASH_CE ||| FLASH_OE ||| FLASH_WE)) &&& (255 ^^^ (FLASH_WE ||| FLASH_CE)) }, { s with portA := a % 256, portB := a / 256 % 256, portC := d % 256, portD := (s.portD ||| (FLASH_CE ||| FLASH_OE ||| FLASH_WE)) &&& (255 ^^^ (FLASH_WE ||| FLASH_CE)) ||| (FLASH_CE ||| FLASH_OE ||| FLASH_WE) }, ?_, ?_, ?_, ?_, ?_, ?_, ?_, ?_, ?_⟩
  · simp only [writeByte]
    rfl
  · intro e he
    simp only [writeByte, List.take, List.mem_cons, List.not_mem_nil,
               or_false] at he
    rcases he with rfl | rfl | rfl | rfl <;>
      simp [Ev.state, weLine, ceLine, FLASH_CE, FLASH_OE, FLASH_WE]
  · simp only [addrBus]
    show a / 256 % 256 * 256 + a % 256 = a
    omega
  · exact Nat.mod_eq_of_lt hd
  · simp [weLine, FLASH_CE, FLASH_OE, FLASH_WE]
  · simp [ceLine, FLASH_CE, FLASH_OE, FLASH_WE]
  · simp [weLine, FLASH_CE, FLASH_OE, FLASH_WE]
  · simp [ceLine, FLASH_CE, FLASH_OE, FLASH_WE]
  · simp [oeLine, FLASH_CE, FLASH_OE, FLASH_WE]

/-- Claim C5: at no event of any operation (`writeByte`, `readByte`,
`writePage`, `chipErase`, `captureOwnership`, `releaseOwnership`) are the
flash output-enable and write-enable lines both asserted low, provided
the operation starts from a state already satisfying that exclusion (as
`setup` establishes and every operation preserves). -/
theorem no_oe_we_conflict (s : Ports) (h : exclOK s) (flash : Nat → Nat)
    (a d address : Nat) (src : List Nat) :
    (∀ e ∈ (writeByte a d s).2, exclOK e.state)
    ∧ (∀ e ∈ (readByte flash a s).2.2, exclOK e.state)
    ∧ (∀ e ∈ (writePage address src s).2, exclOK e.state)
    ∧ (∀ e ∈ (chipErase s).2, exclOK e.state)
    ∧ (∀ e ∈ (captureOwnership s).2, exclOK e.state)
    ∧ (∀ e ∈ (releaseOwnership s).2, exclOK e.state) :=
  ⟨writeByte_events a d s, readByte_events flash a s h,
   writePage_events address src s h, chipErase_events s h,
   captureOwnership_events s h, releaseOwnership_events s⟩

/-- Claim C6: for every page index `p` the dispatcher accepts (a byte,
`p < 256`), the write command writes and the dump command reads exactly
the 128 consecutive flash addresses `p*128 .. p*128+127`; and the
dispatcher run on the serial stream `w3DEADBEEF*` (bytes
119, 51, 68, 69, 65, 68, 66, 69, 69, 70, 42) writes the bytes
0xDE, 0xAD, 0xBE, 0xEF followed by 124 zero bytes at addresses
0x0180 .. 0x01FF. -/
theorem page_commands_use_page_base (p : Nat) (hp : p < 256)
    (input : List Nat) (flash : Nat → Nat) (s : Ports) :
    writeTxnsFrom s (writePageHexM p input s).2
      = [(0x5555, 0xAA), (0x2AAA, 0x55), (0x5555, 0xA0)]
          ++ (List.range PAGE_SIZE).map (fun i =>
              (p * PAGE_SIZE + i,
               (fillBuffer (List.replicate PAGE_SIZE 0) input 0).getD i 0 % 256))
    ∧ readsFrom s (dumpPageM flash p s).2.2
        = (List.range PAGE_SIZE).map (fun i => p * PAGE_SIZE + i)
    ∧ writeTxnsFrom setupPorts
        (loopM flash [119, 51, 68, 69, 65, 68, 66, 69, 69, 70, 42] setupPorts).2
      = [(0x5555, 0xAA), (0x2AAA, 0x55), (0x5555, 0xA0)]
          ++ (List.range PAGE_SIZE).map (fun i =>
              (0x0180 + i, [0xDE, 0xAD, 0xBE, 0xEF].getD i 0)) := by
  refine ⟨?_, ?_, ?_⟩
  · rw [writePageHexM_txns]
    congr 1
    apply List.map_congr_left
    intro i hi
    simp only [List.mem_range, PAGE_SIZE] at hi
    rw [Nat.mod_eq_of_lt (by simp only [PAGE_SIZE]; omega)]
  · rw [dumpPageM_reads]
    apply List.map_congr_left
    intro i hi
    simp only [List.mem_range, PAGE_SIZE] at hi
    rw [Nat.mod_eq_of_lt (by simp only [PAGE_SIZE]; omega)]
  · have hloop : loopM flash [119, 51, 68, 69, 65, 68, 66, 69, 69, 70, 42]
        setupPorts
        = writePageHexM 3 [68, 69, 65, 68, 66, 69, 69, 70, 42] setupPorts := by
      norm_num [loopM, pageOf]
    rw [hloop, writePageHexM_txns]
    set_option maxRecDepth 100000 in decide

/-- Claim C7: for every serial input that encodes fewer than 128 bytes
before the star sentinel (byte 42), the collected page buffer is the
decoded bytes in order followed by zero bytes, has full page length 128,
and `writePage` on it still writes the whole 128-byte page with the
remainder zero-padded. -/
theorem short_input_zero_pads (input : List Nat) (hsent : 42 ∈ input)
    (hshort : (decodeHex input).length < PAGE_SIZE) :
    fillBuffer (List.replicate PAGE_SIZE 0) input 0
      = decodeHex input
          ++ List.replicate (PAGE_SIZE - (decodeHex input).length) 0
    ∧ (fillBuffer (List.replicate PAGE_SIZE 0) input 0).length = PAGE_SIZE
    ∧ ∀ (address : Nat) (s : Ports),
        writeTxnsFrom s
          (writePage address (fillBuffer (List.replicate PAGE_SIZE 0) input 0) s).2
        = [(0x5555, 0xAA), (0x2AAA, 0x55), (0x5555, 0xA0)]
            ++ (List.range PAGE_SIZE).map (fun i =>
                ((address + i) % 65536,
                 (decodeHex input
                   ++ List.replicate (PAGE_SIZE - (decodeHex input).length) 0).getD i 0
                   % 256)) := by
  have h1 : fillBuffer (List.replicate PAGE_SIZE 0) input 0
      = decodeHex input
          ++ List.replicate (PAGE_SIZE - (decodeHex input).length) 0 := by
    have := fill_spec input (List.replicate PAGE_SIZE 0) 0
      (by simp) (by omega) (by simp)
    simpa using this
  refine ⟨h1, ?_, ?_⟩
  · rw [h1]
    simp only [List.length_append, List.length_replicate]
    omega
  · intro address s
    rw [h1, writePage_txns_eq]

/-- Claim C8: `ascToNibble` maps ASCII digits to 0-9, lowercase and
uppercase hex letters to 10-15, and every other byte to 0 with no error
reported. -/
theorem ascToNibble_spec :
    ∀ v, v < 256 →
      ((48 ≤ v ∧ v ≤ 57) → ascToNibble v = v - 48)
      ∧ ((97 ≤ v ∧ v ≤ 102) → ascToNibble v = v - 97 + 10)
      ∧ ((65 ≤ v ∧ v ≤ 70) → ascToNibble v = v - 65 + 10)
      ∧ (¬(48 ≤ v ∧ v ≤ 57) → ¬(97 ≤ v ∧ v ≤ 102) → ¬(65 ≤ v ∧ v ≤ 70) →
          ascToNibble v = 0) := by
  intro v _
  refine ⟨?_, ?_, ?_, ?_⟩
  · intro h
    simp [ascToNibble, h]
  · intro h
    have h0 : ¬(48 ≤ v ∧ v ≤ 57) := by omega
    simp [ascToNibble, h0, h]
  · intro h
    have h0 : ¬(48 ≤ v ∧ v ≤ 57) := by omega
    have h1 : ¬(97 ≤ v ∧ v ≤ 102) := by omega
    simp [ascToNibble, h0, h1, h]
  · intro h0 h1 h2
    simp [ascToNibble, h0, h1, h2]

/-- Claim C9: on the mock flash chip honouring the documented command
protocol (unlock then page-load), writing any 128-byte page with
`writePage` and reading the 128 addresses back through `readByte` (via
`readLoop`) returns exactly the written byte sequence. -/
theorem writePage_readBack_roundTrip (base : Nat) (src : List Nat)
    (f0 : Flash) (s : Ports) (hlen : src.length = PAGE_SIZE)
    (hbytes : ∀ b ∈ src, b < 256) (hmode : f0.mode = 0) :
    (readLoop (flashRun f0 (writeTxnsFrom s (writePage base src s).2)).mem
        base 0 PAGE_SIZE (writePage base src s).1).1 = src :=
  roundTrip_general base src f0 s hlen hbytes hmode

/-- Claim C10: if the star sentinel (42) arrives as the second character
of a hex pair, the high nibble already read is discarded: the collection
loop returns the buffer unchanged (so the current position keeps its
prior value and, starting from the zeroed page buffer, stays zero), no
byte index is advanced, and collection stops regardless of any further
input. -/
theorem sentinel_in_low_nibble_discards_pair (buf : List Nat) (i h : Nat)
    (rest : List Nat) (hh : h ≠ 42) (hi : i < PAGE_SIZE) :
    fillBuffer buf (h :: 42 :: rest) i = buf
    ∧ (fillBuffer buf (h :: 42 :: rest) i).getD i 0 = buf.getD i 0
    ∧ fillBuffer (List.replicate PAGE_SIZE 0) (h :: 42 :: rest) 0
        = List.replicate PAGE_SIZE 0 := by
  have h1 : fillBuffer buf (h :: 42 :: rest) i = buf := by
    simp [fillBuffer, hh]
  have h2 : fillBuffer (List.replicate PAGE_SIZE 0) (h :: 42 :: rest) 0
      = List.replicate PAGE_SIZE 0 := by
    simp [fillBuffer, hh]
  exact ⟨h1, by rw [h1], h2⟩

/-!
Witnesses: each theorem with a hypothesis evaluated at one concrete
input, the hypotheses discharged there.
-/

/-- Witness for claim C2 at `address = 0`, `src = []`, `s = setupPorts`. -/
theorem writePage_unlock_then_sequential_writes_witness :
    0 + PAGE_SIZE ≤ 65536
    ∧ (writeTxnsFrom setupPorts (writePage 0 [] setupPorts).2
        = [(0x5555, 0xAA), (0x2AAA, 0x55), (0x5555, 0xA0)]
            ++ (List.range PAGE_SIZE).map
                (fun i => (0 + i, ([] : List Nat).getD i 0 % 256))
      ∧ ∃ t1 t2 hs,
          (writePage 0 [] setupPorts).2 = t1 ++ Ev.delayMs 10 hs :: t2
          ∧ writeTxnsFrom (endState setupPorts t1) t2 = []) :=
  ⟨by decide, writePage_unlock_then_sequential_writes 0 [] setupPorts (by decide)⟩

/-- Witness for claim C4 at `a = 0x5555`, `d = 0xAA`, `s = setupPorts`. -/
theorem writeByte_signal_protocol_witness :
    0x5555 < 65536 ∧ 0xAA < 256
    ∧ ∃ sLo sHi,
        (writeByte 0x5555 0xAA setupPorts).2
          = ((writeByte 0x5555 0xAA setupPorts).2.take 4)
              ++ [Ev.setReg sLo, Ev.delayUs 1 sLo, Ev.setReg sHi, Ev.delayUs 1 sHi]
        ∧ (∀ e ∈ (writeByte 0x5555 0xAA setupPorts).2.take 4,
            weLine e.state = true ∧ ceLine e.state = true)
        ∧ addrBus sLo = 0x5555 ∧ sLo.portC = 0xAA
        ∧ weLine sLo = false ∧ ceLine sLo = false
        ∧ weLine sHi = true ∧ ceLine sHi = true ∧ oeLine sHi = true :=
  ⟨by decide, by decide,
   writeByte_signal_protocol 0x5555 0xAA (by decide) (by decide) setupPorts⟩

/-- Witness for claim C5 at `s = setupPorts` with trivial arguments. -/
theorem no_oe_we_conflict_witness :
    exclOK setupPorts
    ∧ ((∀ e ∈ (writeByte 0 0 setupPorts).2, exclOK e.state)
      ∧ (∀ e ∈ (readByte (fun _ => 0) 0 setupPorts).2.2, exclOK e.state)
      ∧ (∀ e ∈ (writePage 0 [] setupPorts).2, exclOK e.state)
      ∧ (∀ e ∈ (chipErase setupPorts).2, exclOK e.state)
      ∧ (∀ e ∈ (captureOwnership setupPorts).2, exclOK e.state)
      ∧ (∀ e ∈ (releaseOwnership setupPorts).2, exclOK e.state)) :=
  ⟨by simp [exclOK, oeLine, setupPorts, FLASH_CE, FLASH_OE, FLASH_WE, BUFFER_OE],
   no_oe_we_conflict setupPorts
     (by simp [exclOK, oeLine, setupPorts, FLASH_CE, FLASH_OE, FLASH_WE, BUFFER_OE])
     (fun _ => 0) 0 0 0 []⟩

/-- Witness for claim C6 at `p = 0`, `input = []`, `s = setupPorts`. -/
theorem page_commands_use_page_base_witness :
    0 < 256
    ∧ (writeTxnsFrom setupPorts (writePageHexM 0 [] setupPorts).2
        = [(0x5555, 0xAA), (0x2AAA, 0x55), (0x5555, 0xA0)]
            ++ (List.range PAGE_SIZE).map (fun i =>
                (0 * PAGE_SIZE + i,
                 (fillBuffer (List.replicate PAGE_SIZE 0) [] 0).getD i 0 % 256))
      ∧ readsFrom setupPorts (dumpPageM (fun _ => 0) 0 setupPorts).2.2
          = (List.range PAGE_SIZE).map (fun i => 0 * PAGE_SIZE + i)
      ∧ writeTxnsFrom setupPorts
          (loopM (fun _ => 0) [119, 51, 68, 69, 65, 68, 66, 69, 69, 70, 42]
            setupPorts).2
        = [(0x5555, 0xAA), (0x2AAA, 0x55), (0x5555, 0xA0)]
            ++ (List.range PAGE_SIZE).map (fun i =>
                (0x0180 + i, [0xDE, 0xAD, 0xBE, 0xEF].getD i 0))) :=
  ⟨by decide, page_commands_use_page_base 0 (by decide) [] (fun _ => 0) setupPorts⟩

/-- Witness for claim C7 at `input = [42]` (sentinel immediately). -/
theorem short_input_zero_pads_witness :
    42 ∈ [42] ∧ (decodeHex [42]).length < PAGE_SIZE
    ∧ (fillBuffer (List.replicate PAGE_SIZE 0) [42] 0
        = decodeHex [42]
            ++ List.replicate (PAGE_SIZE - (decodeHex [42]).length) 0
      ∧ (fillBuffer (List.replicate PAGE_SIZE 0) [42] 0).length = PAGE_SIZE
      ∧ ∀ (address : Nat) (s : Ports),
          writeTxnsFrom s
            (writePage address (fillBuffer (List.replicate PAGE_SIZE 0) [42] 0) s).2
          = [(0x5555, 0xAA), (0x2AAA, 0x55), (0x5555, 0xA0)]
              ++ (List.range PAGE_SIZE).map (fun i =>
                  ((address + i) % 65536,
                   (decodeHex [42]
                     ++ List.replicate (PAGE_SIZE - (decodeHex [42]).length) 0).getD i 0
                     % 256))) :=
  ⟨by decide, by decide, short_input_zero_pads [42] (by decide) (by decide)⟩

/-- Witness for claim C8 at `v = 97` (lowercase letter a). -/
theorem ascToNibble_spec_witness :
    97 < 256
    ∧ (((48 ≤ 97 ∧ 97 ≤ 57) → ascToNibble 97 = 97 - 48)
      ∧ ((97 ≤ 97 ∧ 97 ≤ 102) → ascToNibble 97 = 97 - 97 + 10)
      ∧ ((65 ≤ 97 ∧ 97 ≤ 70) → ascToNibble 97 = 97 - 65 + 10)
      ∧ (¬(48 ≤ 97 ∧ 97 ≤ 57) → ¬(97 ≤ 97 ∧ 97 ≤ 102) → ¬(65 ≤ 97 ∧ 97 ≤ 70) →
          ascToNibble 97 = 0)) :=
  ⟨by decide, ascToNibble_spec 97 (by decide)⟩

/-- Witness for claim C9 at `base = 0`, `src` the all-zero page,
`f0 = ⟨0, fun _ => 0⟩`, `s = setupPorts`. -/
theorem writePage_readBack_roundTrip_witness :
    (List.replicate PAGE_SIZE 0).length = PAGE_SIZE
    ∧ (∀ b ∈ List.replicate PAGE_SIZE 0, b < 256)
    ∧ (Flash.mk 0 (fun _ => 0)).mode = 0
    ∧ (readLoop (flashRun (Flash.mk 0 (fun _ => 0))
          (writeTxnsFrom setupPorts
            (writePage 0 (List.replicate PAGE_SIZE 0) setupPorts).2)).mem
        0 0 PAGE_SIZE (writePage 0 (List.replicate PAGE_SIZE 0) setupPorts).1).1
      = List.replicate PAGE_SIZE 0 :=
  ⟨by simp, by
     intro b hb
     rw [List.eq_of_mem_replicate hb]
     omega,
   rfl,
   writePage_readBack_roundTrip 0 (List.replicate PAGE_SIZE 0)
     (Flash.mk 0 (fun _ => 0)) setupPorts (by simp)
     (by
       intro b hb
       rw [List.eq_of_mem_replicate hb]
       omega)
     rfl⟩

/-- Witness for claim C10 at `buf` the zeroed page, `i = 0`, `h = 65`,
`rest = []`. -/
theorem sentinel_in_low_nibble_discards_pair_witness :
    (65 : Nat) ≠ 42 ∧ 0 < PAGE_SIZE
    ∧ (fillBuffer (List.replicate PAGE_SIZE 0) (65 :: 42 :: []) 0
        = List.replicate PAGE_SIZE 0
      ∧ (fillBuffer (List.replicate PAGE_SIZE 0) (65 :: 42 :: []) 0).getD 0 0
          = (List.replicate PAGE_SIZE 0).getD 0 0
      ∧ fillBuffer (List.replicate PAGE_SIZE 0) (65 :: 42 :: []) 0
          = List.replicate PAGE_SIZE 0) :=
  ⟨by decide, by decide,
   sentinel_in_low_nibble_discards_pair (List.replicate PAGE_SIZE 0) 0 65 []
     (by decide) (by decide)⟩

end FlashProg
